import Mathlib

/-!
Verification of the Stock-Trend-Prediction repository's core pipeline
(`src/stock_analyzer.py` and `app.py`): data loading / column mapping,
technical-indicator augmentation, sliding-window pattern detection and
summary statistics.

Modelling conventions:
* prices and indicator values are rationals (`ℚ`); pandas/NumPy missing
  values (`NaN`) are modelled as `none : Option ℚ` — any float comparison
  against `NaN` is false, which `oltB`/`oleB` reproduce;
* a pandas frame is a list of rows; column access is a field projection;
* values that are irrational in the source (square roots arising from
  standard deviations) are modelled in `ℝ`, with sqrt-free rational
  encodings of the comparisons the source performs, each justified by an
  equivalence lemma;
* `pd.DataFrame.empty`/`iloc` index conventions follow the source.
-/

namespace StockAnalyzer

/-- Pairwise consecutive differences of a list, as produced by
`Series.diff().dropna()` on a NaN-free column. -/
def diffList : List ℚ → List ℚ
  | [] => []
  | [_] => []
  | x :: y :: xs => (y - x) :: diffList (y :: xs)

/-- Arithmetic mean of a list of rationals (`Series.mean()` on a NaN-free
column; only applied to nonempty lists by the source). -/
def listMean (xs : List ℚ) : ℚ := xs.sum / (xs.length : ℚ)

/-- Sample variance with `ddof = 1` (the square of `Series.std()`); the
source only applies it to 20-element windows. -/
def sampleVar (xs : List ℚ) : ℚ :=
  (xs.map (fun x => (x - listMean xs) ^ 2)).sum / ((xs.length : ℚ) - 1)

/-- Strict `<` on possibly-missing floats: any comparison with `NaN`
(`none`) is false, as in IEEE/pandas. -/
def oltB : Option ℚ → Option ℚ → Bool
  | some x, some y => decide (x < y)
  | _, _ => false

/-- Non-strict `≤` on possibly-missing floats: false when either side is
`NaN` (`none`). -/
def oleB : Option ℚ → Option ℚ → Bool
  | some x, some y => decide (x ≤ y)
  | _, _ => false

/-- Float `>` with `NaN` semantics. -/
def ogtB (a b : Option ℚ) : Bool := oltB b a

/-- Float `≥` with `NaN` semantics. -/
def ogeB (a b : Option ℚ) : Bool := oleB b a

/-- One row of the indicator-augmented frame as read by
`StockAnalyzer.identify_patterns` (columns `Date`, `Name`, `Close`,
`SMA_50`, `SMA_200`, `RSI`, `BB_Upper`, `BB_Lower`; dates are abstracted
to their ordinal). Indicator columns are possibly-`NaN`. -/
structure PRow where
  date : ℕ
  name : String
  close : ℚ
  sma50 : Option ℚ
  sma200 : Option ℚ
  rsi : Option ℚ
  bbUpper : Option ℚ
  bbLower : Option ℚ
deriving DecidableEq, Repr, Inhabited

/-- One pattern event appended by `identify_patterns` (keys `date`,
`pattern`, `confidence`, `description`). -/
structure Event where
  date : ℕ
  pattern : String
  confidence : String
  description : String
deriving DecidableEq, Repr

/-- Condition of source line 116: every consecutive close-to-close
difference in the window is strictly positive. -/
def uptrendB (closes : List ℚ) : Bool :=
  (diffList closes).all (fun d => decide (0 < d))

/-- Condition of source line 123: every consecutive difference is
strictly negative. -/
def downtrendB (closes : List ℚ) : Bool :=
  (diffList closes).all (fun d => decide (d < 0))

/-- Condition of source line 132, `window_data['Close'].std() <
window_data['Close'].mean() * 0.02`.  The standard deviation is
`Real.sqrt (sampleVar closes)`; since `sampleVar closes ≥ 0`, the float
comparison `sqrt v < m` holds iff `0 < m ∧ v < m ^ 2`, which is the
sqrt-free rational form used here (equivalence proved in
`consolidationB_correct` below). -/
def consolidationB (closes : List ℚ) : Bool :=
  let m := listMean closes * (2 / 100)
  decide (0 < m) && decide (sampleVar closes < m ^ 2)

/-- Golden-cross condition of source lines 141-142: `SMA_50 ≤ SMA_200` at
the window's second-to-last bar and `SMA_50 > SMA_200` at its last bar. -/
def goldenB (s50p s200p s50l s200l : Option ℚ) : Bool :=
  oleB s50p s200p && ogtB s50l s200l

/-- Death-cross condition of source lines 151-152: `SMA_50 ≥ SMA_200`
then `SMA_50 < SMA_200`. -/
def deathB (s50p s200p s50l s200l : Option ℚ) : Bool :=
  ogeB s50p s200p && oltB s50l s200l

/-- Trend / consolidation block (source lines 116-138): an `if/elif/elif`
chain, so at most one of the three fires. -/
def trendEvents (closes : List ℚ) (d : ℕ) : List Event :=
  if uptrendB closes then
    [⟨d, "Strong Uptrend", "High", "Consistent upward price movement"⟩]
  else if downtrendB closes then
    [⟨d, "Strong Downtrend", "High", "Consistent downward price movement"⟩]
  else if consolidationB closes then
    [⟨d, "Consolidation", "Medium", "Price moving sideways in a tight range"⟩]
  else []

/-- RSI block (source lines 161-174): `if RSI > 70 / elif RSI < 30`. -/
def rsiEvents (r : Option ℚ) (d : ℕ) : List Event :=
  if ogtB r (some 70) then
    [⟨d, "Overbought", "Medium", "RSI above 70 indicates potential overbought condition"⟩]
  else if oltB r (some 30) then
    [⟨d, "Oversold", "Medium", "RSI below 30 indicates potential oversold condition"⟩]
  else []

/-- Bollinger block (source lines 177-190): current close against the
window's latest upper/lower band, `if / elif`. -/
def bandEvents (curClose : ℚ) (bbUl bbLl : Option ℚ) (d : ℕ) : List Event :=
  if ogtB (some curClose) bbUl then
    [⟨d, "Above Upper Band", "Medium", "Price above upper Bollinger Band"⟩]
  else if oltB (some curClose) bbLl then
    [⟨d, "Below Lower Band", "Medium", "Price below lower Bollinger Band"⟩]
  else []

/-- One iteration of the detection loop (source lines 111-190), as a
function of exactly the values the body reads: the window's closes, the
`SMA_50`/`SMA_200` values at the window's last two bars, the `RSI` and
Bollinger bands at the window's last bar, and the current bar's close and
date. Blocks are appended in source order. -/
def stepOn (closes : List ℚ) (s50p s200p s50l s200l rsil bbUl bbLl : Option ℚ)
    (curClose : ℚ) (curDate : ℕ) : List Event :=
  trendEvents closes curDate
    ++ (if goldenB s50p s200p s50l s200l then
          [⟨curDate, "Golden Cross", "High", "50-day SMA crosses above 200-day SMA"⟩]
        else [])
    ++ (if deathB s50p s200p s50l s200l then
          [⟨curDate, "Death Cross", "High", "50-day SMA crosses below 200-day SMA"⟩]
        else [])
    ++ rsiEvents rsil curDate
    ++ bandEvents curClose bbUl bbLl curDate

/-- Trailing window `stock_data.iloc[i-20 : i]` (the detector is always
invoked with its default `window = 20`). -/
def windowRows (rows : List PRow) (i : ℕ) : List PRow :=
  (rows.drop (i - 20)).take 20

/-- Last row of the window (`window_data.iloc[-1]`). -/
def wlast (rows : List PRow) (i : ℕ) : PRow :=
  (windowRows rows i).getLastD default

/-- Second-to-last row of the window (`window_data.iloc[-2]`). -/
def wprev (rows : List PRow) (i : ℕ) : PRow :=
  (windowRows rows i).dropLast.getLastD default

/-- Current bar `stock_data.iloc[i]`. -/
def curRow (rows : List PRow) (i : ℕ) : PRow := rows.getD i default

/-- Iteration `i` of the pattern loop on a (filtered) symbol series. -/
def patternStep (rows : List PRow) (i : ℕ) : List Event :=
  stepOn ((windowRows rows i).map PRow.close)
    (wprev rows i).sma50 (wprev rows i).sma200
    (wlast rows i).sma50 (wlast rows i).sma200
    (wlast rows i).rsi (wlast rows i).bbUpper (wlast rows i).bbLower
    (curRow rows i).close (curRow rows i).date

/-- Natural-order concatenation of the loop iterations
`for i in range(lo, lo + n)`. -/
def loopEvents (rows : List PRow) : ℕ → ℕ → List Event
  | _, 0 => []
  | i, n + 1 => patternStep rows i ++ loopEvents rows (i + 1) n

/-- Model of `StockAnalyzer.identify_patterns(symbol, window=20)` (source
lines 97-192): filter the frame to the symbol's rows, raise `ValueError`
on an empty result, otherwise run the loop `for i in range(20,
len(stock_data))` and return the collected events. -/
def identifyPatterns (frame : List PRow) (symbol : String) :
    Except String (List Event) :=
  let stockData := frame.filter (fun r => r.name == symbol)
  if stockData.isEmpty then
    Except.error ("No data found for symbol: " ++ symbol)
  else
    Except.ok (loopEvents stockData 20 (stockData.length - 20))

/-- Concrete series: five bars of symbol `A`, strictly increasing dates. -/
def cin5 : List PRow :=
  [⟨0, "A", 1, none, none, none, none, none⟩,
   ⟨1, "A", 2, none, none, none, none, none⟩,
   ⟨2, "A", 3, none, none, none, none, none⟩,
   ⟨3, "A", 4, none, none, none, none, none⟩,
   ⟨4, "A", 5, none, none, none, none, none⟩]

/-- Concrete series: two bars of symbol `A`. -/
def cin2 : List PRow :=
  [⟨0, "A", 1, none, none, none, none, none⟩,
   ⟨1, "A", 2, none, none, none, none, none⟩]

/-- Concrete flat bar: symbol `A`, close 5, no indicator values. -/
def flatRow : PRow := ⟨0, "A", 5, none, none, none, none, none⟩

/-- Concrete series: 21 bars of symbol `A` with constant close 5. -/
def cflat21 : List PRow := List.replicate 21 flatRow

/-- Concrete 21-bar series differing from `cflat21` only in bar 0's RSI —
a bar inside the window but a field the detector does not read there. -/
def c9frame : List PRow :=
  ⟨0, "A", 5, none, none, some 50, none, none⟩ :: List.replicate 20 flatRow

/-- One raw OHLCV row of the loaded frame (columns `Date`, `Name`,
`Open`, `High`, `Low`, `Close`, `Volume`; `Open` is `openPrice` because
`open` is reserved in Lean; dates are abstracted to ordinals). -/
structure RawRow where
  date : ℕ
  name : String
  openPrice : ℚ
  high : ℚ
  low : ℚ
  close : ℚ
  volume : ℚ
deriving DecidableEq, Repr, Inhabited

/-- One row of `self.df` after `calculate_technical_indicators`: the raw
fields plus every indicator column the source assigns (lines 66-95).
Columns are possibly-`NaN` (`Option`); the Bollinger upper/lower bands
involve a square root of the rolling variance and are therefore real-
valued, all other indicators are exact rationals. -/
structure AugRow extends RawRow where
  sma20 : Option ℚ
  sma50 : Option ℚ
  sma200 : Option ℚ
  ema20 : Option ℚ
  ema50 : Option ℚ
  macd : Option ℚ
  macdSignal : Option ℚ
  macdHist : Option ℚ
  rsi : Option ℚ
  bbUpper : Option ℝ
  bbLower : Option ℝ
  bbMiddle : Option ℚ
  stochK : Option ℚ
  stochD : Option ℚ
deriving Inhabited

/-- Helper for `pctChange`: percentage change of each element relative to
its predecessor. -/
def pctChangeFrom : ℚ → List ℚ → List (Option ℚ)
  | _, [] => []
  | prev, c :: cs => some ((c - prev) / prev) :: pctChangeFrom c cs

/-- Model of `Series.pct_change()` on the close column: the first entry
is `NaN`, entry `i > 0` is `(c_i - c_(i-1)) / c_(i-1)` (prices are
positive per the data model, so no division by zero arises). -/
def pctChange : List ℚ → List (Option ℚ)
  | [] => []
  | c :: cs => none :: pctChangeFrom c cs

/-- Model of `Series.mean()` with pandas `skipna` semantics: `NaN`
entries are dropped; the mean of no defined values is `NaN`. -/
def meanOpt (xs : List (Option ℚ)) : Option ℚ :=
  let v := xs.reduceOption
  if v.length = 0 then none else some (listMean v)

/-- Model of the square of `Series.std()` (`ddof = 1`) with `skipna`
semantics: `NaN` when fewer than two defined values exist. -/
def sampleVarOpt (xs : List (Option ℚ)) : Option ℚ :=
  let v := xs.reduceOption
  if v.length < 2 then none else some (sampleVar v)

/-- Source line 295: `annualized_return = daily_returns.mean() * 252`. -/
def annualizedReturn (rets : List (Option ℚ)) : Option ℚ :=
  (meanOpt rets).map (fun m => m * 252)

/-- Source line 296: `annualized_volatility = daily_returns.std() *
np.sqrt(252)`, i.e. `sqrt(variance) * sqrt 252`, `NaN` when the variance
is `NaN`. -/
noncomputable def annualizedVolatility (rets : List (Option ℚ)) : Option ℝ :=
  (sampleVarOpt rets).map (fun v : ℚ => Real.sqrt (v : ℝ) * Real.sqrt 252)

/-- Float guard of source line 297, `annualized_volatility != 0`: true
when the volatility is `NaN` (a `NaN != 0` comparison is true in IEEE
floats), otherwise true iff the value is nonzero.  Since
`sqrt v * sqrt 252 = 0` iff `v = 0` for a nonnegative variance `v`
(proved in `annualizedVolatility_eq_zero_iff`), the test is decided on
the rational variance. -/
def volNeZeroB (rets : List (Option ℚ)) : Bool :=
  match sampleVarOpt rets with
  | none => true
  | some v => decide (v ≠ 0)

/-- Source line 297: `sharpe_ratio = annualized_return /
annualized_volatility if annualized_volatility != 0 else 0`; the
division of two possibly-`NaN` floats is `NaN` when either side is. -/
noncomputable def sharpeVal (rets : List (Option ℚ)) : Option ℝ :=
  if volNeZeroB rets then
    ((annualizedReturn rets).map (fun q => (q : ℝ))).bind
      (fun a => (annualizedVolatility rets).map (fun v => a / v))
  else some 0

/-- Model of `Series.max()` on a column (only applied to nonempty
series by the source). -/
def listMaxD : List ℚ → ℚ
  | [] => 0
  | x :: xs => xs.foldl max x

/-- Model of `Series.min()` on a column. -/
def listMinD : List ℚ → ℚ
  | [] => 0
  | x :: xs => xs.foldl min x

/-- The numeric content of the summary record built by
`StockAnalyzer.get_stock_summary` (source lines 299-313); the f-string
formatting is presentation and not modelled. -/
structure Summary where
  currentPrice : ℚ
  high52 : ℚ
  low52 : ℚ
  avgVolume : ℚ
  volatility : Option ℝ
  annualReturn : Option ℚ
  sharpe : Option ℝ
  rsiLast : Option ℚ
  macdLast : Option ℚ
  sma20Last : Option ℚ
  sma50Last : Option ℚ
  sma200Last : Option ℚ

/-- Model of `StockAnalyzer.get_stock_summary(symbol)` (source lines
286-315): filter `self.df` to the symbol's rows, raise `ValueError` when
empty, otherwise assemble the summary from the full filtered history. -/
noncomputable def getStockSummary (frame : List AugRow) (symbol : String) :
    Except String Summary :=
  let rows := frame.filter (fun r => r.name == symbol)
  if rows.isEmpty then
    Except.error ("No data found for symbol: " ++ symbol)
  else
    let rets := pctChange (rows.map (fun r => r.close))
    let last := rows.getLastD default
    Except.ok
      { currentPrice := last.close
        high52 := listMaxD (rows.map (fun r => r.high))
        low52 := listMinD (rows.map (fun r => r.low))
        avgVolume := listMean (rows.map (fun r => r.volume))
        volatility := annualizedVolatility rets
        annualReturn := annualizedReturn rets
        sharpe := sharpeVal rets
        rsiLast := last.rsi
        macdLast := last.macd
        sma20Last := last.sma20
        sma50Last := last.sma50
        sma200Last := last.sma200 }

/-- Concrete augmented bar: symbol `A`, constant price 5, all indicator
columns `NaN`. -/
def srowA : AugRow :=
  { date := 0, name := "A", openPrice := 5, high := 5, low := 5, close := 5,
    volume := 0, sma20 := none, sma50 := none, sma200 := none, ema20 := none,
    ema50 := none, macd := none, macdSignal := none, macdHist := none,
    rsi := none, bbUpper := none, bbLower := none, bbMiddle := none,
    stochK := none, stochD := none }

/-- Concrete store: symbol `A` with exactly one bar. -/
def cone : List AugRow := [srowA]

/-- Concrete store: symbol `A` with three identical bars (constant
close, hence all defined daily returns are 0). -/
def crow3 : List AugRow := List.replicate 3 srowA

/-- Concrete store for the 52-week-high/low claim: two bars of symbol
`A` with distinct highs and lows. -/
def csum2 : List AugRow :=
  [{ srowA with date := 0, high := 10, low := 5, close := 6 },
   { srowA with date := 1, high := 20, low := 2, close := 7 }]

/-- The column synonym mapping of `process_data` (source lines 30-43), in
Python dict insertion order.  Keys are matched EXACTLY (case-sensitively),
as `old_col in self.df.columns` is a case-sensitive membership test. -/
def columnMapping : List (String × String) :=
  [("date", "Date"), ("timestamp", "Date"), ("datetime", "Date"),
   ("symbol", "Name"), ("ticker", "Name"), ("name", "Name"), ("Name", "Name"),
   ("open", "Open"), ("high", "High"), ("low", "Low"), ("close", "Close"),
   ("volume", "Volume")]

/-- The synonym mapping without the degenerate `("Name", "Name")` entry,
whose rename step is provably the identity (`renameStep_nameName`). -/
def columnMappingCore : List (String × String) :=
  [("date", "Date"), ("timestamp", "Date"), ("datetime", "Date"),
   ("symbol", "Name"), ("ticker", "Name"), ("name", "Name"),
   ("open", "Open"), ("high", "High"), ("low", "Low"), ("close", "Close"),
   ("volume", "Volume")]

/-- One `df.rename(columns={old: new}, inplace=True)` step, applied only
when `old` is present and `new` is absent (source lines 46-48). -/
def renameStep (cols : List String) (p : String × String) : List String :=
  if p.1 ∈ cols ∧ p.2 ∉ cols then
    cols.map (fun c => if c = p.1 then p.2 else c)
  else cols

/-- The full renaming pass of `process_data`. -/
def applyMapping (cols : List String) : List String :=
  columnMapping.foldl renameStep cols

/-- Required columns checked at source lines 51-52. -/
def requiredColumns : List String :=
  ["Date", "Name", "Open", "High", "Low", "Close", "Volume"]

/-- Column-level model of `process_data` (source lines 27-55): rename by
the synonym mapping, then raise `ValueError` iff a required column is
still missing. -/
def processColumns (cols : List String) : Except String (List String) :=
  let renamed := applyMapping cols
  let missing := requiredColumns.filter (fun c => ¬(c ∈ renamed))
  if missing.isEmpty then Except.ok renamed
  else Except.error "Missing required columns"

/-- Stable insertion of a row into a date-sorted list (a stable model of
`df.sort_values('Date')`, source line 61; the claims only exercise it on
inputs with already-sorted or tied dates, where any stable sort agrees). -/
def insertByDate (r : RawRow) : List RawRow → List RawRow
  | [] => [r]
  | x :: xs => if r.date ≤ x.date then r :: x :: xs else x :: insertByDate r xs

/-- Stable sort of the whole frame by date. -/
def sortByDate : List RawRow → List RawRow
  | [] => []
  | r :: rs => insertByDate r (sortByDate rs)

/-- Modelled from the spec, section 4.2 (the `ta` library's
`SMAIndicator(close, window=n).sma_indicator()` is not part of this
repository): arithmetic mean of close over the trailing `n` bars,
undefined for the first `n - 1` positions. -/
def rollingMean (n : ℕ) (xs : List ℚ) : List (Option ℚ) :=
  (List.range xs.length).map (fun i =>
    if n ≤ i + 1 then some (listMean ((xs.drop (i + 1 - n)).take n)) else none)

/-- Modelled from the spec, section 4.2: rolling population variance of
the trailing `n` bars (the square of the rolling standard deviation used
by the Bollinger computation). -/
def rollingVarP (n : ℕ) (xs : List ℚ) : List (Option ℚ) :=
  (List.range xs.length).map (fun i =>
    if n ≤ i + 1 then
      let w := (xs.drop (i + 1 - n)).take n
      some ((w.map (fun x => (x - listMean w) ^ 2)).sum / (n : ℚ))
    else none)

/-- Exponential smoothing recurrence `v = a*x + (1-a)*prev`. -/
def emaFrom (a : ℚ) : ℚ → List ℚ → List ℚ
  | _, [] => []
  | prev, x :: xs =>
    let v := a * x + (1 - a) * prev
    v :: emaFrom a v xs

/-- Modelled from the spec, section 4.2 (the `ta` library's
`EMAIndicator` is not part of this repository): exponential moving
average with smoothing factor `2/(n+1)`, seeded by the first SMA(n),
undefined for the first `n - 1` positions. -/
def emaSpec (n : ℕ) (xs : List ℚ) : List (Option ℚ) :=
  if xs.length < n ∨ n = 0 then List.replicate xs.length none
  else
    let seed := listMean (xs.take n)
    List.replicate (n - 1) none ++
      some seed :: (emaFrom (2 / ((n : ℚ) + 1)) seed (xs.drop n)).map some

/-- Subtraction of possibly-`NaN` values. -/
def osub : Option ℚ → Option ℚ → Option ℚ
  | some a, some b => some (a - b)
  | _, _ => none

/-- Modelled from the spec, section 4.2: MACD line = EMA(12) - EMA(26). -/
def macdLine (xs : List ℚ) : List (Option ℚ) :=
  List.zipWith osub (emaSpec 12 xs) (emaSpec 26 xs)

/-- Modelled from the spec, section 4.2: signal = EMA(9) of the MACD
line (applied to its defined suffix). -/
def macdSignalLine (xs : List ℚ) : List (Option ℚ) :=
  let m := macdLine xs
  let vals := m.reduceOption
  List.replicate (m.length - vals.length) none ++ emaSpec 9 vals

/-- Modelled from the spec, section 4.2: histogram = MACD - signal. -/
def macdHistLine (xs : List ℚ) : List (Option ℚ) :=
  List.zipWith osub (macdLine xs) (macdSignalLine xs)

/-- RSI value from average gain and average loss, mapped to 0-100; a zero
average loss yields 100 (the limit of the formula as `rs` diverges). -/
def rsiOf (g l : ℚ) : ℚ := if l = 0 then 100 else 100 - 100 / (1 + g / l)

/-- Wilder's smoothing recurrence over the remaining price differences. -/
def wilderRsi (n : ℚ) : ℚ → ℚ → List ℚ → List ℚ
  | _, _, [] => []
  | g, l, d :: ds =>
    let g2 := (g * (n - 1) + max d 0) / n
    let l2 := (l * (n - 1) + max (-d) 0) / n
    rsiOf g2 l2 :: wilderRsi n g2 l2 ds

/-- Modelled from the spec, section 4.2 (the `ta` library's
`RSIIndicator` is not part of this repository): average-gain/average-loss
ratio over the trailing `n = 14` bars with Wilder's smoothing, undefined
for the first `n` positions. -/
def rsiSpec (n : ℕ) (xs : List ℚ) : List (Option ℚ) :=
  let ds := diffList xs
  if xs.length ≤ n then List.replicate xs.length none
  else
    let g0 := listMean ((ds.take n).map (fun d => max d 0))
    let l0 := listMean ((ds.take n).map (fun d => max (-d) 0))
    List.replicate n none ++
      some (rsiOf g0 l0) :: (wilderRsi (n : ℚ) g0 l0 (ds.drop n)).map some

/-- Modelled from the spec, section 4.2: Bollinger upper band =
SMA(20) + 2 * rolling standard deviation (real-valued: the standard
deviation is a square root). -/
noncomputable def bbUpperList (xs : List ℚ) : List (Option ℝ) :=
  List.zipWith (fun m v => match m, v with
    | some mv, some vv => some ((mv : ℝ) + 2 * Real.sqrt (vv : ℝ))
    | _, _ => none) (rollingMean 20 xs) (rollingVarP 20 xs)

/-- Modelled from the spec, section 4.2: Bollinger lower band =
SMA(20) - 2 * rolling standard deviation. -/
noncomputable def bbLowerList (xs : List ℚ) : List (Option ℝ) :=
  List.zipWith (fun m v => match m, v with
    | some mv, some vv => some ((mv : ℝ) - 2 * Real.sqrt (vv : ℝ))
    | _, _ => none) (rollingMean 20 xs) (rollingVarP 20 xs)

/-- Modelled from the spec, section 4.2 (the `ta` library's
`StochasticOscillator` is not part of this repository): `%K = 100 *
(close - rolling-min(low, 14)) / (rolling-max(high, 14) -
rolling-min(low, 14))`, undefined on a zero range. -/
def stochKList (highs lows closes : List ℚ) : List (Option ℚ) :=
  (List.range closes.length).map (fun i =>
    if 14 ≤ i + 1 then
      let lo := listMinD ((lows.drop (i + 1 - 14)).take 14)
      let hi := listMaxD ((highs.drop (i + 1 - 14)).take 14)
      if hi = lo then none
      else some (100 * ((closes.getD i 0) - lo) / (hi - lo))
    else none)

/-- Modelled from the spec, section 4.2: `%D` = SMA(3) of `%K`. -/
def stochDList (highs lows closes : List ℚ) : List (Option ℚ) :=
  let k := stochKList highs lows closes
  (List.range k.length).map (fun i =>
    if 3 ≤ i + 1 then
      match k.getD (i - 2) none, k.getD (i - 1) none, k.getD i none with
      | some a, some b, some c => some ((a + b + c) / 3)
      | _, _, _ => none
    else none)

/-- Model of `StockAnalyzer.calculate_technical_indicators` (source
lines 66-95): compute every indicator column over the WHOLE frame's
close/high/low columns — across symbol boundaries, since the frame is
only sorted by date at this point — and attach them to the rows. -/
noncomputable def calculateTechnicalIndicators (rows : List RawRow) : List AugRow :=
  let closes := rows.map (fun r => r.close)
  let highs := rows.map (fun r => r.high)
  let lows := rows.map (fun r => r.low)
  let s20 := rollingMean 20 closes
  let s50 := rollingMean 50 closes
  let s200 := rollingMean 200 closes
  let e20 := emaSpec 20 closes
  let e50 := emaSpec 50 closes
  let ml := macdLine closes
  let ms := macdSignalLine closes
  let mh := macdHistLine closes
  let rs := rsiSpec 14 closes
  let bu := bbUpperList closes
  let bl := bbLowerList closes
  let kf := stochKList highs lows closes
  let df := stochDList highs lows closes
  (List.range rows.length).map (fun i =>
    { toRawRow := rows.getD i default
      sma20 := s20.getD i none
      sma50 := s50.getD i none
      sma200 := s200.getD i none
      ema20 := e20.getD i none
      ema50 := e50.getD i none
      macd := ml.getD i none
      macdSignal := ms.getD i none
      macdHist := mh.getD i none
      rsi := rs.getD i none
      bbUpper := bu.getD i none
      bbLower := bl.getD i none
      bbMiddle := s20.getD i none
      stochK := kf.getD i none
      stochD := df.getD i none })

/-- Row-level model of `process_data` after the column renaming (source
lines 57-64): sort the whole multi-symbol frame by date, then compute the
indicators over it. -/
noncomputable def processFrame (rows : List RawRow) : List AugRow :=
  calculateTechnicalIndicators (sortByDate rows)

/-- An augmented row whose indicator columns are all absent/`NaN` — the
state of a row before `calculate_technical_indicators` assigns the
columns. -/
def rawToAug (r : RawRow) : AugRow :=
  { toRawRow := r, sma20 := none, sma50 := none, sma200 := none,
    ema20 := none, ema50 := none, macd := none, macdSignal := none,
    macdHist := none, rsi := none, bbUpper := none, bbLower := none,
    bbMiddle := none, stochK := none, stochD := none }

/-- Concrete raw bar of symbol `A`, price 1. -/
def rawA : RawRow := ⟨0, "A", 1, 1, 1, 1, 0⟩

/-- Concrete raw frame: 20 identical bars of symbol `A`. -/
def craw20 : List RawRow := List.replicate 20 rawA

/-- Concrete dataset 1 for the cross-symbol test: 19 bars of symbol `B`
at price 1 (date 0), then one bar of symbol `A` at price 1 (date 1). -/
def dsB1 : List RawRow :=
  List.replicate 19 ⟨0, "B", 1, 1, 1, 1, 0⟩ ++ [⟨1, "A", 1, 1, 1, 1, 0⟩]

/-- Concrete dataset 2: identical to `dsB1` on symbol `A`'s rows, but
symbol `B`'s bars now have price 2. -/
def dsB2 : List RawRow :=
  List.replicate 19 ⟨0, "B", 2, 2, 2, 2, 0⟩ ++ [⟨1, "A", 1, 1, 1, 1, 0⟩]

/-- Justification of the sqrt-free consolidation test: for a nonnegative
variance `v`, the float comparison `sqrt v < m` that the source performs
is equivalent to the rational test `0 < m ∧ v < m ^ 2` used in
`consolidationB`. -/
theorem sqrt_lt_rat_iff (v m : ℚ) :
    (Real.sqrt (v : ℝ) < (m : ℝ)) ↔ (0 < m ∧ v < m ^ 2) := by
  constructor
  · intro h
    have hm : (0 : ℝ) < (m : ℝ) := lt_of_le_of_lt (Real.sqrt_nonneg _) h
    have hm' : (0 : ℚ) < m := by exact_mod_cast hm
    refine ⟨hm', ?_⟩
    have := (Real.sqrt_lt' hm).mp h
    exact_mod_cast this
  · rintro ⟨hm, hlt⟩
    have hm' : (0 : ℝ) < (m : ℝ) := by exact_mod_cast hm
    refine (Real.sqrt_lt' hm').mpr ?_
    exact_mod_cast hlt

/-- Nonnegativity of the sample variance, so `sqrt_lt_rat_iff` applies to
the source's consolidation test. -/
theorem sampleVar_nonneg (xs : List ℚ) (h : 2 ≤ xs.length) :
    0 ≤ sampleVar xs := by
  unfold sampleVar
  apply div_nonneg
  · apply List.sum_nonneg
    intro x hx
    obtain ⟨y, _, rfl⟩ := List.mem_map.mp hx
    positivity
  · have : (2 : ℚ) ≤ (xs.length : ℚ) := by exact_mod_cast h
    linarith

/-- Golden-cross and death-cross conditions cannot hold simultaneously:
one requires `SMA_50 > SMA_200` at the window's last bar, the other
`SMA_50 < SMA_200` there. -/
theorem goldenB_deathB_mutex (a b c d : Option ℚ) :
    ¬(goldenB a b c d = true ∧ deathB a b c d = true) := by
  rintro ⟨hg, hd⟩
  rw [goldenB, Bool.and_eq_true] at hg
  rw [deathB, Bool.and_eq_true] at hd
  obtain ⟨-, hg2⟩ := hg
  obtain ⟨-, hd2⟩ := hd
  rw [ogtB] at hg2
  cases c <;> cases d <;> simp [oltB] at hg2 hd2
  linarith

/-- Every event emitted by one loop iteration carries the current bar's
date. -/
theorem stepOn_date (closes : List ℚ) (s50p s200p s50l s200l rsil bbUl bbLl : Option ℚ)
    (cc : ℚ) (cd : ℕ) :
    ∀ e ∈ stepOn closes s50p s200p s50l s200l rsil bbUl bbLl cc cd, e.date = cd := by
  intro e he
  unfold stepOn trendEvents rsiEvents bandEvents at he
  split_ifs at he <;> simp_all <;> casesm* _ ∨ _ <;> simp_all

/-- Per-iteration exclusion facts, stated on the iteration body. -/
theorem stepOn_exclusions (closes : List ℚ)
    (s50p s200p s50l s200l rsil bbUl bbLl : Option ℚ) (cc : ℚ) (cd : ℕ) :
    let evs := stepOn closes s50p s200p s50l s200l rsil bbUl bbLl cc cd
    ((evs.filter (fun e => e.pattern = "Strong Uptrend" ∨
        e.pattern = "Strong Downtrend" ∨ e.pattern = "Consolidation")).length ≤ 1) ∧
    ¬("Golden Cross" ∈ evs.map Event.pattern ∧
        "Death Cross" ∈ evs.map Event.pattern) ∧
    ¬("Overbought" ∈ evs.map Event.pattern ∧
        "Oversold" ∈ evs.map Event.pattern) ∧
    ¬("Above Upper Band" ∈ evs.map Event.pattern ∧
        "Below Lower Band" ∈ evs.map Event.pattern) ∧
    ("Consolidation" ∈ evs.map Event.pattern →
        uptrendB closes = false ∧ downtrendB closes = false) ∧
    evs.length ≤ 4 := by
  have mutex := goldenB_deathB_mutex s50p s200p s50l s200l
  unfold stepOn trendEvents rsiEvents bandEvents
  split_ifs <;> simp_all [List.filter]

/-- Events of iteration `i` all carry `stock_data.iloc[i]['Date']`. -/
theorem patternStep_date (rows : List PRow) (i : ℕ) :
    ∀ e ∈ patternStep rows i, e.date = (curRow rows i).date :=
  stepOn_date ((windowRows rows i).map PRow.close)
    (wprev rows i).sma50 (wprev rows i).sma200
    (wlast rows i).sma50 (wlast rows i).sma200
    (wlast rows i).rsi (wlast rows i).bbUpper (wlast rows i).bbLower
    (curRow rows i).close (curRow rows i).date

/-- Each event of the loop over `range(i, i + n)` stems from a bar index
in that range and carries that bar's date. -/
theorem loopEvents_mem (rows : List PRow) (n : ℕ) :
    ∀ i : ℕ, ∀ e ∈ loopEvents rows i n,
      ∃ j, i ≤ j ∧ j < i + n ∧ e.date = (curRow rows j).date := by
  induction n with
  | zero => intro i e he; simp [loopEvents] at he
  | succ n ih =>
    intro i e he
    rw [loopEvents] at he
    rcases List.mem_append.mp he with h | h
    · exact ⟨i, le_refl i, by omega, patternStep_date rows i e h⟩
    · obtain ⟨j, hj1, hj2, hj3⟩ := ih (i + 1) e h
      exact ⟨j, by omega, by omega, hj3⟩

/-- In-bounds `getD` is `getElem`. -/
theorem getD_eq_get (l : List PRow) (i : ℕ) (h : i < l.length) :
    l.getD i default = l[i] := by
  rw [List.getD_eq_getElem?_getD, List.getElem?_eq_getElem h, Option.getD_some]

/-- On a date-sorted series, bar dates are monotone in the index. -/
theorem curRow_date_mono (rows : List PRow)
    (hs : List.Pairwise (fun a b => a.date ≤ b.date) rows)
    {i j : ℕ} (hij : i ≤ j) (hj : j < rows.length) :
    (curRow rows i).date ≤ (curRow rows j).date := by
  rcases eq_or_lt_of_le hij with rfl | hlt
  · exact le_refl _
  · have hi : i < rows.length := lt_trans hlt hj
    rw [curRow, curRow, getD_eq_get rows i hi, getD_eq_get rows j hj]
    exact List.pairwise_iff_getElem.mp hs i j hi hj hlt

/-- The loop's concatenated event list is in nondecreasing date order on
a date-sorted series. -/
theorem loopEvents_sorted (rows : List PRow)
    (hs : List.Pairwise (fun a b => a.date ≤ b.date) rows) :
    ∀ n i : ℕ, i + n ≤ rows.length →
      List.Pairwise (fun a b => a.date ≤ b.date) (loopEvents rows i n) := by
  intro n
  induction n with
  | zero => intro i _; simp [loopEvents]
  | succ n ih =>
    intro i hbound
    rw [loopEvents, List.pairwise_append]
    refine ⟨?_, ih (i + 1) (by omega), ?_⟩
    · apply List.pairwise_of_forall_mem_list
      intro a ha b hb
      rw [patternStep_date rows i a ha, patternStep_date rows i b hb]
    · intro a ha b hb
      obtain ⟨j, hj1, hj2, hj3⟩ := loopEvents_mem rows n (i + 1) b hb
      rw [patternStep_date rows i a ha, hj3]
      exact curRow_date_mono rows hs (by omega) (by omega)

/-- Differences of a constant list are all zero. -/
theorem diffList_replicate (c : ℚ) :
    ∀ n, diffList (List.replicate n c) = List.replicate (n - 1) (0 : ℚ)
  | 0 => rfl
  | 1 => rfl
  | (n + 2) => by
    rw [List.replicate_succ, List.replicate_succ c n, diffList,
      ← List.replicate_succ, diffList_replicate c (n + 1)]
    simp [List.replicate_succ]

/-- Mean of a constant list is that constant. -/
theorem listMean_replicate (n : ℕ) (c : ℚ) (hn : n ≠ 0) :
    listMean (List.replicate n c) = c := by
  have hn' : ((n : ℚ)) ≠ 0 := Nat.cast_ne_zero.mpr hn
  rw [listMean, List.sum_replicate, List.length_replicate, nsmul_eq_mul]
  exact mul_div_cancel_left₀ c hn'

/-- Sample variance of a constant list is zero. -/
theorem sampleVar_replicate (n : ℕ) (c : ℚ) (hn : n ≠ 0) :
    sampleVar (List.replicate n c) = 0 := by
  simp [sampleVar, listMean_replicate n c hn, List.map_replicate, List.sum_replicate]

/-- Iteration 20 on the constant series emits exactly one Consolidation
event: the trend conditions fail (all differences are zero), the
consolidation test passes (variance 0 below the 2 percent threshold), and
all indicator-based checks see `NaN` and fail. -/
theorem patternStep_cflat21 :
    patternStep cflat21 20 =
      [⟨0, "Consolidation", "Medium", "Price moving sideways in a tight range"⟩] := by
  have hcl : (windowRows cflat21 20).map PRow.close = List.replicate 20 (5 : ℚ) := rfl
  have hup : uptrendB (List.replicate 20 (5 : ℚ)) = false := by
    rw [uptrendB, diffList_replicate]
    rfl
  have hdown : downtrendB (List.replicate 20 (5 : ℚ)) = false := by
    rw [downtrendB, diffList_replicate]
    rfl
  have hcons : consolidationB (List.replicate 20 (5 : ℚ)) = true := by
    rw [consolidationB]
    rw [listMean_replicate 20 5 (by decide), sampleVar_replicate 20 5 (by decide)]
    norm_num
  unfold patternStep stepOn
  rw [hcl]
  rw [trendEvents, hup, hdown, hcons]
  rfl

/-- C3 theorem (amended): on every nonempty symbol series,
`identify_patterns` succeeds and — when the series is date-sorted, as the
store guarantees — returns its events in nondecreasing date order; it
never raises for a nonempty series, no matter how short. -/
theorem identifyPatterns_ok_of_nonempty (frame : List PRow) (symbol : String)
    (hne : frame.filter (fun r => r.name == symbol) ≠ [])
    (hs : List.Pairwise (fun a b => a.date ≤ b.date)
      (frame.filter (fun r => r.name == symbol))) :
    ∃ evs, identifyPatterns frame symbol = Except.ok evs ∧
      List.Pairwise (fun a b => a.date ≤ b.date) evs := by
  simp only [identifyPatterns]
  rw [if_neg (by simpa [List.isEmpty_iff] using hne)]
  refine ⟨_, rfl, ?_⟩
  by_cases h20 : (frame.filter (fun r => r.name == symbol)).length < 20
  · have h0 : (frame.filter (fun r => r.name == symbol)).length - 20 = 0 := by omega
    rw [h0]
    exact List.Pairwise.nil
  · exact loopEvents_sorted _ hs _ 20 (by omega)

/-- C3 witness: the theorem applied to the two-bar series. -/
theorem identifyPatterns_ok_of_nonempty_witness :
    ∃ evs, identifyPatterns cin2 "A" = Except.ok evs ∧
      List.Pairwise (fun a b => a.date ≤ b.date) evs :=
  identifyPatterns_ok_of_nonempty cin2 "A" (by decide) (by decide)

/-- C3 counterexample: a five-bar series has fewer than `window = 20`
bars, yet `identify_patterns` returns the empty sequence rather than
raising `InsufficientHistoryError`, refuting "raises exactly when the
series has fewer than 20 bars". -/
theorem identifyPatterns_short_no_error_cex :
    (cin5.filter (fun r => r.name == "A")).length < 20 ∧
      identifyPatterns cin5 "A" = Except.ok [] :=
  ⟨by decide, rfl⟩

/-- C4 theorem (amended): every NONEMPTY series shorter than `window =
20` bars yields the empty event sequence without an error; the empty
series instead raises (see the counterexample). -/
theorem identifyPatterns_short_nonempty_empty_seq (frame : List PRow) (symbol : String)
    (hne : frame.filter (fun r => r.name == symbol) ≠ [])
    (hlen : (frame.filter (fun r => r.name == symbol)).length < 20) :
    identifyPatterns frame symbol = Except.ok [] := by
  simp only [identifyPatterns]
  rw [if_neg (by simpa [List.isEmpty_iff] using hne)]
  have h0 : (frame.filter (fun r => r.name == symbol)).length - 20 = 0 := by omega
  rw [h0]
  rfl

/-- C4 witness: the theorem applied to the five-bar series. -/
theorem identifyPatterns_short_nonempty_empty_seq_witness :
    identifyPatterns cin2 "A" = Except.ok [] :=
  identifyPatterns_short_nonempty_empty_seq cin2 "A" (by decide) (by decide)

/-- C4 counterexample: on the empty series `identify_patterns` raises
`ValueError` ("No data found") instead of returning the empty sequence,
refuting "including the empty series ... does not raise any error". -/
theorem identifyPatterns_empty_raises_cex :
    identifyPatterns ([] : List PRow) "A" =
      Except.error "No data found for symbol: A" := rfl

/-- C5 theorem: in each loop iteration, at most one of Strong Uptrend /
Strong Downtrend / Consolidation is emitted (Consolidation only when
neither trend condition held), Golden and Death Cross never both fire,
Overbought and Oversold never both fire, Above-Upper and Below-Lower
never both fire, and at most four events are emitted in total. -/
theorem patternStep_mutual_exclusion (rows : List PRow) (i : ℕ) :
    let evs := patternStep rows i
    ((evs.filter (fun e => e.pattern = "Strong Uptrend" ∨
        e.pattern = "Strong Downtrend" ∨ e.pattern = "Consolidation")).length ≤ 1) ∧
    ¬("Golden Cross" ∈ evs.map Event.pattern ∧
        "Death Cross" ∈ evs.map Event.pattern) ∧
    ¬("Overbought" ∈ evs.map Event.pattern ∧
        "Oversold" ∈ evs.map Event.pattern) ∧
    ¬("Above Upper Band" ∈ evs.map Event.pattern ∧
        "Below Lower Band" ∈ evs.map Event.pattern) ∧
    ("Consolidation" ∈ evs.map Event.pattern →
        uptrendB ((windowRows rows i).map PRow.close) = false ∧
        downtrendB ((windowRows rows i).map PRow.close) = false) ∧
    evs.length ≤ 4 :=
  stepOn_exclusions ((windowRows rows i).map PRow.close)
    (wprev rows i).sma50 (wprev rows i).sma200
    (wlast rows i).sma50 (wlast rows i).sma200
    (wlast rows i).rsi (wlast rows i).bbUpper (wlast rows i).bbLower
    (curRow rows i).close (curRow rows i).date

/-- C5 witness: on the constant-close 21-bar series, iteration 20 emits a
Consolidation event; the theorem's consolidation clause is discharged
there, and both trend conditions are indeed false. -/
theorem patternStep_mutual_exclusion_witness :
    ((patternStep cflat21 20).length ≤ 4) ∧
      uptrendB ((windowRows cflat21 20).map PRow.close) = false ∧
      downtrendB ((windowRows cflat21 20).map PRow.close) = false :=
  ⟨(patternStep_mutual_exclusion cflat21 20).2.2.2.2.2,
   (patternStep_mutual_exclusion cflat21 20).2.2.2.2.1
     (by rw [patternStep_cflat21]; decide)⟩

/-- C9 theorem: every event of iteration `i` carries the date of bar `i`
(a bar outside the inspected window), and the iteration's output is fully
determined by the window's closes, the `SMA_50`/`SMA_200` values at bars
`i-2` and `i-1`, bar `i-1`'s RSI and Bollinger bands, and bar `i`'s close
and date — bar `i`'s own indicator values are never consulted. -/
theorem patternStep_reads_window_only (rows rows' : List PRow) (i : ℕ) :
    (∀ e ∈ patternStep rows i, e.date = (curRow rows i).date) ∧
    ((windowRows rows i).map PRow.close = (windowRows rows' i).map PRow.close →
      (wprev rows i).sma50 = (wprev rows' i).sma50 →
      (wprev rows i).sma200 = (wprev rows' i).sma200 →
      (wlast rows i).sma50 = (wlast rows' i).sma50 →
      (wlast rows i).sma200 = (wlast rows' i).sma200 →
      (wlast rows i).rsi = (wlast rows' i).rsi →
      (wlast rows i).bbUpper = (wlast rows' i).bbUpper →
      (wlast rows i).bbLower = (wlast rows' i).bbLower →
      (curRow rows i).close = (curRow rows' i).close →
      (curRow rows i).date = (curRow rows' i).date →
      patternStep rows i = patternStep rows' i) := by
  refine ⟨patternStep_date rows i, ?_⟩
  intro h1 h2 h3 h4 h5 h6 h7 h8 h9 h10
  unfold patternStep
  rw [h1, h2, h3, h4, h5, h6, h7, h8, h9, h10]

/-- C9 witness: the two frames differ, yet iteration 20 produces the
same events, because the difference is outside the values the iteration
reads. -/
theorem patternStep_reads_window_only_witness :
    cflat21 ≠ c9frame ∧ patternStep cflat21 20 = patternStep c9frame 20 :=
  ⟨by decide,
   (patternStep_reads_window_only cflat21 c9frame 20).2
     rfl rfl rfl rfl rfl rfl rfl rfl rfl rfl⟩

/-- A defined sample variance is nonnegative. -/
theorem sampleVarOpt_nonneg (xs : List (Option ℚ)) (v : ℚ)
    (h : sampleVarOpt xs = some v) : 0 ≤ v := by
  simp only [sampleVarOpt] at h
  split at h
  · exact absurd h (by simp)
  · injection h with h
    subst h
    exact sampleVar_nonneg _ (by omega)

/-- The annualized volatility `sqrt v * sqrt 252` is the float 0 exactly
when the rational variance is 0, so the source's `!= 0` guard is decided
by the variance. -/
theorem annualizedVolatility_eq_zero_iff (rets : List (Option ℚ)) :
    annualizedVolatility rets = some 0 ↔ sampleVarOpt rets = some 0 := by
  constructor
  · intro h
    unfold annualizedVolatility at h
    obtain ⟨v, hv, hz⟩ := Option.map_eq_some'.mp h
    rcases mul_eq_zero.mp hz with h0 | h0
    · have hle : ((v : ℝ)) ≤ 0 := Real.sqrt_eq_zero'.mp h0
      have hge : 0 ≤ v := sampleVarOpt_nonneg rets v hv
      have : v = 0 := le_antisymm (by exact_mod_cast hle) hge
      rwa [this] at hv
    · have : (0 : ℝ) < Real.sqrt 252 := Real.sqrt_pos.mpr (by norm_num)
      linarith
  · intro h
    unfold annualizedVolatility
    rw [h]
    simp

/-- C8 theorem: whenever the annualized volatility of a nonempty symbol
series is exactly 0, `get_stock_summary` succeeds and reports a Sharpe
ratio of exactly 0 (the `!= 0` guard takes the `else 0` branch), and the
reported volatility is 0, not `NaN` or infinite. -/
theorem sharpe_zero_of_zero_volatility (frame : List AugRow) (symbol : String)
    (hne : frame.filter (fun r => r.name == symbol) ≠ [])
    (hvol : annualizedVolatility
        (pctChange ((frame.filter (fun r => r.name == symbol)).map
          (fun r => r.close))) = some 0) :
    ∃ s, getStockSummary frame symbol = Except.ok s ∧
      s.sharpe = some 0 ∧ s.volatility = some 0 := by
  have hvar := (annualizedVolatility_eq_zero_iff _).mp hvol
  have hguard : volNeZeroB
      (pctChange ((frame.filter (fun r => r.name == symbol)).map
        (fun r => r.close))) = false := by
    unfold volNeZeroB
    rw [hvar]
    simp
  simp only [getStockSummary]
  rw [if_neg (by simpa [List.isEmpty_iff] using hne)]
  refine ⟨_, rfl, ?_, hvol⟩
  unfold sharpeVal
  rw [hguard]
  rfl

/-- Daily returns of the three-bar constant series. -/
theorem crow3_rets :
    pctChange ((crow3.filter (fun r => r.name == "A")).map (fun r => r.close)) =
      [none, some 0, some 0] := by
  have h : crow3.filter (fun r => r.name == "A") = crow3 := by
    simp [crow3, List.filter_replicate, srowA]
  rw [h]
  show [none, some ((5 - 5) / 5 : ℚ), some ((5 - 5) / 5 : ℚ)] = _
  norm_num

/-- Variance of the constant series' returns is exactly 0. -/
theorem crow3_var : sampleVarOpt [none, some (0 : ℚ), some 0] = some 0 := by
  show sampleVarOpt [none, some 0, some 0] = some 0
  have h2 : ((2 : ℕ)) ≠ 0 := by norm_num
  have := sampleVar_replicate 2 (0 : ℚ) h2
  unfold sampleVarOpt
  simpa [List.reduceOption, List.replicate] using this

/-- C8 witness: the theorem applied to the three identical bars of
symbol `A` (all defined daily returns are 0, volatility exactly 0). -/
theorem sharpe_zero_of_zero_volatility_witness :
    ∃ s, getStockSummary crow3 "A" = Except.ok s ∧
      s.sharpe = some 0 ∧ s.volatility = some 0 :=
  sharpe_zero_of_zero_volatility crow3 "A"
    (by simp [crow3, List.filter_replicate, srowA])
    (by rw [crow3_rets]
        unfold annualizedVolatility
        rw [crow3_var]
        simp)

/-- C2 theorem (amended): for a symbol with exactly one bar,
`get_stock_summary` succeeds, the daily-return series is the single
undefined entry `[NaN]` (no defined values), and the annualized return,
annualized volatility and Sharpe ratio are all `NaN` — not 0 as the spec
claims. -/
theorem single_bar_summary_nan (frame : List AugRow) (symbol : String)
    (hlen : (frame.filter (fun r => r.name == symbol)).length = 1) :
    pctChange ((frame.filter (fun r => r.name == symbol)).map
      (fun r => r.close)) = [none] ∧
    ∃ s, getStockSummary frame symbol = Except.ok s ∧
      s.annualReturn = none ∧ s.volatility = none ∧ s.sharpe = none := by
  obtain ⟨r, hr⟩ := List.length_eq_one.mp hlen
  refine ⟨by rw [hr]; rfl, ?_⟩
  simp only [getStockSummary]
  rw [hr]
  exact ⟨_, rfl, rfl, rfl, rfl⟩

/-- C2 witness: the theorem applied to the one-bar store `cone`. -/
theorem single_bar_summary_nan_witness :
    pctChange ((cone.filter (fun r => r.name == "A")).map
      (fun r => r.close)) = [none] ∧
    ∃ s, getStockSummary cone "A" = Except.ok s ∧
      s.annualReturn = none ∧ s.volatility = none ∧ s.sharpe = none :=
  single_bar_summary_nan cone "A" (by decide)

/-- C2 counterexample: on the concrete one-bar store the summary
succeeds but reports `NaN` (not 0) for Sharpe ratio, annualized return
and volatility, refuting "it reports annualized return 0, annualized
volatility 0, and Sharpe ratio exactly 0". -/
theorem single_bar_summary_zero_cex :
    Except.map Summary.sharpe (getStockSummary cone "A") = Except.ok none ∧
    Except.map Summary.annualReturn (getStockSummary cone "A") = Except.ok none ∧
    Except.map Summary.volatility (getStockSummary cone "A") = Except.ok none :=
  ⟨rfl, rfl, rfl⟩

/-- Left fold by `max` bounds the seed and every element from below. -/
theorem foldl_max_ub (xs : List ℚ) :
    ∀ a : ℚ, a ≤ xs.foldl max a ∧ ∀ y ∈ xs, y ≤ xs.foldl max a := by
  induction xs with
  | nil => simp
  | cons x xs ih =>
    intro a
    refine ⟨le_trans (le_max_left a x) (ih (max a x)).1, ?_⟩
    intro y hy
    rcases List.mem_cons.mp hy with rfl | hy
    · exact le_trans (le_max_right a y) (ih (max a y)).1
    · exact (ih (max a x)).2 y hy

/-- Left fold by `max` returns the seed or an element. -/
theorem foldl_max_mem (xs : List ℚ) :
    ∀ a : ℚ, xs.foldl max a = a ∨ xs.foldl max a ∈ xs := by
  induction xs with
  | nil => simp
  | cons x xs ih =>
    intro a
    rcases ih (max a x) with h | h
    · rcases max_choice a x with hc | hc
      · rw [List.foldl_cons, h, hc]
        exact Or.inl rfl
      · rw [List.foldl_cons, h, hc]
        exact Or.inr (List.mem_cons_self x xs)
    · exact Or.inr (List.mem_cons_of_mem x h)

/-- Left fold by `min` bounds the seed and every element from above. -/
theorem foldl_min_lb (xs : List ℚ) :
    ∀ a : ℚ, xs.foldl min a ≤ a ∧ ∀ y ∈ xs, xs.foldl min a ≤ y := by
  induction xs with
  | nil => simp
  | cons x xs ih =>
    intro a
    refine ⟨le_trans (ih (min a x)).1 (min_le_left a x), ?_⟩
    intro y hy
    rcases List.mem_cons.mp hy with rfl | hy
    · exact le_trans (ih (min a y)).1 (min_le_right a y)
    · exact (ih (min a x)).2 y hy

/-- Left fold by `min` returns the seed or an element. -/
theorem foldl_min_mem (xs : List ℚ) :
    ∀ a : ℚ, xs.foldl min a = a ∨ xs.foldl min a ∈ xs := by
  induction xs with
  | nil => simp
  | cons x xs ih =>
    intro a
    rcases ih (min a x) with h | h
    · rcases min_choice a x with hc | hc
      · rw [List.foldl_cons, h, hc]
        exact Or.inl rfl
      · rw [List.foldl_cons, h, hc]
        exact Or.inr (List.mem_cons_self x xs)
    · exact Or.inr (List.mem_cons_of_mem x h)

/-- C10 theorem: the summary's 52-Week High is an upper bound of every
bar's High over the symbol's ENTIRE loaded history and is attained by
some bar, and symmetrically for the 52-Week Low — no trailing 52-period
restriction is applied. -/
theorem summary_extremes_whole_history (frame : List AugRow) (symbol : String)
    (hne : frame.filter (fun r => r.name == symbol) ≠ []) :
    ∃ s, getStockSummary frame symbol = Except.ok s ∧
      (∀ r ∈ frame.filter (fun r => r.name == symbol),
        r.high ≤ s.high52 ∧ s.low52 ≤ r.low) ∧
      (∃ r ∈ frame.filter (fun r => r.name == symbol), s.high52 = r.high) ∧
      (∃ r ∈ frame.filter (fun r => r.name == symbol), s.low52 = r.low) := by
  obtain ⟨x, xs, hcons⟩ := List.exists_cons_of_ne_nil hne
  simp only [getStockSummary]
  rw [hcons]
  refine ⟨_, rfl, ?_, ?_, ?_⟩
  · intro r hr
    constructor
    · show r.high ≤ listMaxD ((x :: xs).map (fun r => r.high))
      rw [List.map_cons, listMaxD]
      rcases List.mem_cons.mp hr with rfl | hr
      · exact (foldl_max_ub _ r.high).1
      · exact (foldl_max_ub _ x.high).2 r.high (List.mem_map_of_mem _ hr)
    · show listMinD ((x :: xs).map (fun r => r.low)) ≤ r.low
      rw [List.map_cons, listMinD]
      rcases List.mem_cons.mp hr with rfl | hr
      · exact (foldl_min_lb _ r.low).1
      · exact (foldl_min_lb _ x.low).2 r.low (List.mem_map_of_mem _ hr)
  · show ∃ r ∈ x :: xs, listMaxD ((x :: xs).map (fun r => r.high)) = r.high
    rw [List.map_cons, listMaxD]
    rcases foldl_max_mem (xs.map (fun r => r.high)) x.high with h | h
    · exact ⟨x, List.mem_cons_self x xs, h⟩
    · obtain ⟨r, hr, hrh⟩ := List.mem_map.mp h
      exact ⟨r, List.mem_cons_of_mem x hr, hrh.symm⟩
  · show ∃ r ∈ x :: xs, listMinD ((x :: xs).map (fun r => r.low)) = r.low
    rw [List.map_cons, listMinD]
    rcases foldl_min_mem (xs.map (fun r => r.low)) x.low with h | h
    · exact ⟨x, List.mem_cons_self x xs, h⟩
    · obtain ⟨r, hr, hrh⟩ := List.mem_map.mp h
      exact ⟨r, List.mem_cons_of_mem x hr, hrh.symm⟩

/-- C10 witness: the theorem applied to the two-bar store with distinct
highs and lows. -/
theorem summary_extremes_whole_history_witness :
    ∃ s, getStockSummary csum2 "A" = Except.ok s ∧
      (∀ r ∈ csum2.filter (fun r => r.name == "A"),
        r.high ≤ s.high52 ∧ s.low52 ≤ r.low) ∧
      (∃ r ∈ csum2.filter (fun r => r.name == "A"), s.high52 = r.high) ∧
      (∃ r ∈ csum2.filter (fun r => r.name == "A"), s.low52 = r.low) :=
  summary_extremes_whole_history csum2 "A" (by simp [csum2, srowA])

/-- The degenerate `("Name", "Name")` mapping entry never fires: its
condition requires `Name` both present and absent. -/
theorem renameStep_nameName (cols : List String) :
    renameStep cols ("Name", "Name") = cols := by
  unfold renameStep
  rw [if_neg]
  rintro ⟨h1, h2⟩
  exact h2 h1

/-- The renaming pass equals the fold over the core mapping. -/
theorem applyMapping_eq_core (cols : List String) :
    applyMapping cols = columnMappingCore.foldl renameStep cols := by
  unfold applyMapping columnMapping columnMappingCore
  simp only [List.foldl_cons, List.foldl_nil]
  rw [renameStep_nameName]

/-- Membership after one rename step comes from membership before, or
from the new name with the old one present. -/
theorem mem_renameStep_elim {cols : List String} {p : String × String} {x : String}
    (h : x ∈ renameStep cols p) : x ∈ cols ∨ (x = p.2 ∧ p.1 ∈ cols) := by
  unfold renameStep at h
  split at h
  · rename_i hcond
    obtain ⟨c, hc, hcx⟩ := List.mem_map.mp h
    by_cases hcp : c = p.1
    · rw [if_pos hcp] at hcx
      exact Or.inr ⟨hcx.symm, hcp ▸ hc⟩
    · rw [if_neg hcp] at hcx
      exact Or.inl (hcx ▸ hc)
  · exact Or.inl h

/-- A column different from the renamed one survives a rename step. -/
theorem mem_renameStep_intro {cols : List String} {p : String × String} {x : String}
    (hx : x ∈ cols) (hne : x ≠ p.1) : x ∈ renameStep cols p := by
  unfold renameStep
  split
  · exact List.mem_map.mpr ⟨x, hx, by rw [if_neg hne]⟩
  · exact hx

/-- When the old name is present, the new name is present afterwards. -/
theorem renameStep_creates {cols : List String} {p : String × String}
    (h1 : p.1 ∈ cols) : p.2 ∈ renameStep cols p := by
  unfold renameStep
  split
  · exact List.mem_map.mpr ⟨p.1, h1, by rw [if_pos rfl]⟩
  · rename_i hcond
    by_cases h2 : p.2 ∈ cols
    · exact h2
    · exact absurd ⟨h1, h2⟩ hcond

/-- Membership of a canonical column after the whole renaming fold: it
was present from the start, or some synonym pair for it had its key
present. Requires that the fold's pairs never rename the tracked column
away, never produce one another's keys, and have distinct keys — all
facts of the concrete mapping. -/
theorem mem_foldl_renameStep (r : String) :
    ∀ (ps : List (String × String)) (cols : List String),
      (∀ p ∈ ps, p.1 ≠ r) →
      (∀ p ∈ ps, ∀ q ∈ ps, p.2 ≠ q.1) →
      List.Pairwise (fun p q => p.1 ≠ q.1) ps →
      (r ∈ ps.foldl renameStep cols ↔
        r ∈ cols ∨ ∃ p ∈ ps, p.2 = r ∧ p.1 ∈ cols) := by
  intro ps
  induction ps with
  | nil =>
    intro cols _ _ _
    simp
  | cons a ps ih =>
    intro cols hA hB hK
    rw [List.foldl_cons,
      ih (renameStep cols a) (fun p hp => hA p (List.mem_cons_of_mem a hp))
        (fun p hp q hq =>
          hB p (List.mem_cons_of_mem a hp) q (List.mem_cons_of_mem a hq))
        hK.of_cons]
    constructor
    · rintro (h | ⟨p, hp, hpr, hp1⟩)
      · rcases mem_renameStep_elim h with h | ⟨hra, h1⟩
        · exact Or.inl h
        · exact Or.inr ⟨a, List.mem_cons_self a ps, hra.symm, h1⟩
      · rcases mem_renameStep_elim hp1 with h | ⟨hpa, h1⟩
        · exact Or.inr ⟨p, List.mem_cons_of_mem a hp, hpr, h⟩
        · exact absurd hpa.symm
            (hB a (List.mem_cons_self a ps) p (List.mem_cons_of_mem a hp))
    · rintro (h | ⟨p, hp, hpr, hp1⟩)
      · exact Or.inl (mem_renameStep_intro h
          (fun he => hA a (List.mem_cons_self a ps) he.symm))
      · rcases List.mem_cons.mp hp with rfl | hp'
        · exact Or.inl (hpr ▸ renameStep_creates hp1)
        · have hne : p.1 ≠ a.1 := ((List.pairwise_cons.mp hK).1 p hp').symm
          exact Or.inr ⟨p, hp', hpr, mem_renameStep_intro hp1 hne⟩

/-- Success of the column check is exactly presence of every required
column after the renaming pass. -/
theorem processColumns_ok_iff_aux (cols : List String) :
    (∃ out, processColumns cols = Except.ok out) ↔
      ∀ req ∈ requiredColumns, req ∈ applyMapping cols := by
  simp only [processColumns]
  constructor
  · rintro ⟨out, hout⟩
    split at hout
    · rename_i hempty
      intro req hreq
      by_contra hmem
      have hm : req ∈ requiredColumns.filter (fun c => ¬(c ∈ applyMapping cols)) :=
        List.mem_filter.mpr ⟨hreq, by simpa using hmem⟩
      rw [List.isEmpty_iff.mp hempty] at hm
      exact absurd hm (List.not_mem_nil req)
    · exact absurd hout (by simp)
  · intro h
    rw [if_pos]
    · exact ⟨_, rfl⟩
    · rw [List.isEmpty_iff]
      rw [List.filter_eq_nil_iff]
      intro c hc
      simpa using h c hc

/-- C6 theorem (amended): the synonym mapping is exact and
case-sensitive — loading succeeds iff every required canonical column
(`Date`, `Name`, `Open`, `High`, `Low`, `Close`, `Volume`) either
appears verbatim or has one of the exact lowercase synonym keys present;
in particular the all-lowercase header set loads successfully (while
differently-cased headers such as `DATE` are rejected, see the
counterexample). -/
theorem processColumns_case_sensitive :
    (∀ cols : List String,
      (∃ out, processColumns cols = Except.ok out) ↔
        ∀ req ∈ requiredColumns,
          req ∈ cols ∨ ∃ p ∈ columnMappingCore, p.2 = req ∧ p.1 ∈ cols) ∧
    (∃ out, processColumns ["date", "ticker", "open", "high", "low", "close",
      "volume"] = Except.ok out) := by
  have hA : ∀ r ∈ requiredColumns, ∀ p ∈ columnMappingCore, p.1 ≠ r := by decide
  have hB : ∀ p ∈ columnMappingCore, ∀ q ∈ columnMappingCore, p.2 ≠ q.1 := by decide
  have hK : List.Pairwise (fun p q : String × String => p.1 ≠ q.1)
      columnMappingCore := by decide
  have hiff : ∀ cols : List String,
      (∃ out, processColumns cols = Except.ok out) ↔
        ∀ req ∈ requiredColumns,
          req ∈ cols ∨ ∃ p ∈ columnMappingCore, p.2 = req ∧ p.1 ∈ cols := by
    intro cols
    rw [processColumns_ok_iff_aux]
    constructor
    · intro h req hreq
      have := h req hreq
      rw [applyMapping_eq_core] at this
      exact (mem_foldl_renameStep req columnMappingCore cols
        (hA req hreq) hB hK).mp this
    · intro h req hreq
      rw [applyMapping_eq_core]
      exact (mem_foldl_renameStep req columnMappingCore cols
        (hA req hreq) hB hK).mpr (h req hreq)
  exact ⟨hiff, (hiff _).mpr (by decide)⟩

/-- C6 witness: the lowercase synonym header set is accepted via the
theorem's characterization. -/
theorem processColumns_case_sensitive_witness :
    ∃ out, processColumns ["date", "ticker", "open", "high", "low", "close",
      "volume"] = Except.ok out :=
  (processColumns_case_sensitive.1 _).mpr (by decide)

/-- C6 counterexample: uppercase variants of the required headers are
rejected with the missing-columns error, refuting "an input whose headers
are the required names in a different letter case loads successfully"
and the claimed case-insensitivity of the mapping. -/
theorem processColumns_uppercase_cex :
    processColumns ["DATE", "TICKER", "OPEN", "HIGH", "LOW", "CLOSE",
      "VOLUME"] = Except.error "Missing required columns" := rfl

/-- Indexing a list by its own range recovers the list. -/
theorem map_getD_range {α : Type _} (d : α) :
    ∀ l : List α, (List.range l.length).map (fun i => l.getD i d) = l := by
  intro l
  induction l with
  | nil => rfl
  | cons x xs ih =>
    rw [List.length_cons, List.range_succ_eq_map, List.map_cons, List.map_map]
    have hc : ((fun i => (x :: xs).getD i d) ∘ Nat.succ) = fun i => xs.getD i d :=
      funext (fun i => rfl)
    rw [hc, ih]
    rfl

/-- C7 theorem (amended): `calculate_technical_indicators` preserves
every raw field of every row — mapping the augmented frame back to its
raw columns recovers the input frame exactly (same rows, same order,
same `Date`/`Name`/OHLCV values); only the new indicator columns are
added. The "returns a new, unmodified-input series" part of the claim is
refuted separately: the columns are assigned in place on `self.df`. -/
theorem augment_preserves_raw (rows : List RawRow) :
    (calculateTechnicalIndicators rows).map AugRow.toRawRow = rows := by
  simp only [calculateTechnicalIndicators]
  rw [List.map_map]
  exact map_getD_range default rows

/-- C7 counterexample: the analyzer's stored frame after
`calculate_technical_indicators` differs observably from the raw frame
it started from (row 19's `SMA_20` now holds a value); since the columns
are assigned in place on `self.df` (and `app.py`'s
`add_technical_indicators` returns the very dataframe it mutated), the
input series object is NOT left unmodified. -/
theorem augment_mutates_frame_cex :
    (calculateTechnicalIndicators craw20).map AugRow.sma20 ≠
      (craw20.map rawToAug).map AugRow.sma20 := by
  intro h
  have h19 : ((calculateTechnicalIndicators craw20).map AugRow.sma20).getD 19 none =
      ((craw20.map rawToAug).map AugRow.sma20).getD 19 none := by rw [h]
  have hL : ((calculateTechnicalIndicators craw20).map AugRow.sma20).getD 19 none =
      some (listMean (List.replicate 20 (1 : ℚ))) := rfl
  have hR : ((craw20.map rawToAug).map AugRow.sma20).getD 19 none = none := rfl
  rw [hL, hR] at h19
  exact Option.some_ne_none _ h19

/-- C1 evaluation: two datasets with identical rows for symbol `A` but
different prices for symbol `B` give `A`'s single bar different `SMA_20`
values (1 versus 39/20), because the indicators are computed over the
globally date-sorted multi-symbol frame before any per-symbol slicing. -/
theorem sma20_cross_symbol_dependence :
    dsB1.filter (fun r => r.name == "A") = dsB2.filter (fun r => r.name == "A") ∧
    ((processFrame dsB1).filter (fun r => r.name == "A")).map AugRow.sma20 =
      [some 1] ∧
    ((processFrame dsB2).filter (fun r => r.name == "A")).map AugRow.sma20 =
      [some (39 / 20)] ∧
    ((39 : ℚ) / 20) ≠ 1 := by
  refine ⟨by decide, ?_, ?_, by norm_num⟩
  · have e1 : ((processFrame dsB1).filter (fun r => r.name == "A")).map AugRow.sma20
        = [some (listMean (List.replicate 19 (1 : ℚ) ++ [1]))] := rfl
    rw [e1]
    have hm : listMean (List.replicate 19 (1 : ℚ) ++ [1]) = 1 := by
      rw [listMean, List.sum_append, List.sum_replicate, List.length_append,
        List.length_replicate]
      norm_num
    rw [hm]
  · have e2 : ((processFrame dsB2).filter (fun r => r.name == "A")).map AugRow.sma20
        = [some (listMean (List.replicate 19 (2 : ℚ) ++ [1]))] := rfl
    rw [e2]
    have hm : listMean (List.replicate 19 (2 : ℚ) ++ [1]) = 39 / 20 := by
      rw [listMean, List.sum_append, List.sum_replicate, List.length_append,
        List.length_replicate]
      norm_num
    rw [hm]

end StockAnalyzer
